import Mathlib

/-!
Verification of the aggregation and alerting engine of the household
budget-tracking backend (src/main.py).

Shallow-embedding conventions:
* Python floats are modelled as rationals (`Rat`), so arithmetic is exact.
* Python dicts are modelled as association lists in insertion order.
  Assignment `d[k] = v` replaces the value at the first occurrence of `k`
  (keeping its position) and appends `(k, v)` when `k` is absent — `dictInsert`
  below.  All dicts manipulated by the engine are built this way from `[]`, so
  keys stay unique, matching Python dict semantics.  `d.get(k, default)` is
  `dictGet`.
* Pydantic models (`ExpenseItem`, `MonthData`, …) give every numeric field a
  default of 0 and require `name`/`month_name`, so documents written by this
  program always carry these fields; the `.get("budget", 0)`,
  `.get("actual", 0)`, `.get("name", …)`, `.get("month_name", …)` and
  `.get("budget", 1)` reads in the routes therefore always return the stored
  field value, and are embedded as plain field projections.
* The MongoDB collections are passed in as explicit arguments: the list of
  month documents (which `get_annual_summary`/`export_excel` receive sorted by
  month from the `.sort("month", 1)` query), the family config, and the
  dismissed-alerts log as the list of alert keys in insertion order.
* The per-call random `uuid4` id on each alert is non-deterministic and not
  used by any computation, so it is omitted from the `Alert` record.
-/

namespace PresupuestoFamiliar

/-- `ExpenseItem` (src/main.py): name, budget, actual.  `category_id` is never
read by the engine routes and is omitted. -/
structure ExpenseItem where
  name : String
  budget : Rat := 0
  actual : Rat := 0
  deriving Repr, DecidableEq

/-- `FamilyMember` (src/main.py): icon-free identity record. -/
structure FamilyMember where
  id : String
  name : String
  percentage : Rat := 50
  deriving Repr, DecidableEq

/-- `ExpenseCategory` (src/main.py). -/
structure ExpenseCategory where
  id : String
  name : String
  icon : String := "folder"
  color : String := "#3b82f6"
  deriving Repr, DecidableEq

/-- `BankAccount` (src/main.py). -/
structure BankAccount where
  id : String
  name : String
  type : String := "checking"
  color : String := "#3b82f6"
  deriving Repr, DecidableEq

/-- `FamilyConfig` (src/main.py); timestamps are irrelevant to the engine. -/
structure FamilyConfig where
  members : List FamilyMember := []
  categories : List ExpenseCategory := []
  bank_accounts : List BankAccount := []
  deriving Repr, DecidableEq

/-- `MonthData` (src/main.py).  The dict-valued fields are association lists in
insertion order. -/
structure MonthData where
  year : Int
  month : Int
  month_name : String
  income : List (String × Rat) := []
  fixed_expenses : List ExpenseItem := []
  variable_expenses : List ExpenseItem := []
  category_expenses : List (String × List ExpenseItem) := []
  bank_balances : List (String × Rat) := []
  savings : List (String × Rat) := []
  deriving Repr, DecidableEq

/-- Python `d.get(k, default)` on a string-keyed dict of amounts. -/
def dictGet : List (String × Rat) → String → Rat → Rat
  | [], _, d => d
  | p :: ps, k, d => if p.1 = k then p.2 else dictGet ps k d

/-- Python `d[k] = v`: replace the value at the first occurrence of `k`
(keeping its position), else append.  On dicts with unique keys — the only ones
the engine builds — this is exactly Python dict assignment. -/
def dictInsert : List (String × Rat) → String → Rat → List (String × Rat)
  | [], k, v => [(k, v)]
  | p :: ps, k, v => if p.1 = k then (k, v) :: ps else p :: dictInsert ps k v

/-- `sum(e.get("actual", 0) for e in items)`. -/
def sumActuals (items : List ExpenseItem) : Rat :=
  (items.map (fun e => e.actual)).sum

/-- `sum(d.values())`. -/
def sumValues (d : List (String × Rat)) : Rat :=
  (d.map (fun p => p.2)).sum

/-- `next((c["name"] for c in config["categories"] if c["id"] == cat_id), "Otros")`. -/
def resolveCategoryName (cfg : FamilyConfig) (cat_id : String) : String :=
  match cfg.categories.find? (fun c => c.id = cat_id) with
  | some c => c.name
  | none => "Otros"

/-- One entry of `monthly_summaries`/`monthly_data` in `get_annual_summary`. -/
structure MonthlySummary where
  month : Int
  month_name : String
  income : Rat
  expenses : Rat
  savings : Rat
  fixed_expenses : Rat
  variable_expenses : Rat
  category_expenses : Rat
  bank_balances : List (String × Rat)
  deriving Repr, DecidableEq, Inhabited

/-- The `savings_projection` sub-object of the annual summary. -/
structure SavingsProjection where
  current_savings : Rat
  avg_monthly_savings : Rat
  projected_annual_savings : Rat
  months_tracked : Nat
  remaining_months : Int
  deriving Repr, DecidableEq, Inhabited

/-- The response object of `get_annual_summary`. -/
structure AnnualSummary where
  year : Int
  total_income : Rat
  total_expenses : Rat
  total_savings : Rat
  monthly_data : List MonthlySummary
  expense_by_category : List (String × Rat)
  member_contributions : List (String × Rat)
  savings_projection : SavingsProjection
  deriving Repr, DecidableEq, Inhabited

/-- Mutable state threaded through the `for m in months` loop of
`get_annual_summary`. -/
structure AggState where
  total_income : Rat
  total_expenses : Rat
  expense_by_category : List (String × Rat)
  member_contributions : List (String × Rat)
  monthly_summaries : List MonthlySummary
  deriving Repr, DecidableEq

/-- Body of `for cat_id, expenses in m["category_expenses"].items()` restricted
to its effect on `expense_by_category`. -/
def addCat (cfg : FamilyConfig) (ebc : List (String × Rat))
    (p : String × List ExpenseItem) : List (String × Rat) :=
  let cat_name := resolveCategoryName cfg p.1
  dictInsert ebc cat_name (dictGet ebc cat_name 0 + sumActuals p.2)

/-- Body of the fixed/variable expense loops in `get_annual_summary`:
`expense_by_category[name] = expense_by_category.get(name, 0) + exp.get("actual", 0)`. -/
def addExpenseItem (ebc : List (String × Rat)) (e : ExpenseItem) :
    List (String × Rat) :=
  dictInsert ebc e.name (dictGet ebc e.name 0 + e.actual)

/-- Body of `for member_id, amount in m["income"].items()`: attribute income to
the matching configured member, silently dropping unknown member ids. -/
def addIncome (cfg : FamilyConfig) (mc : List (String × Rat))
    (p : String × Rat) : List (String × Rat) :=
  match cfg.members.find? (fun mem => mem.id = p.1) with
  | some mem => dictInsert mc mem.name (dictGet mc mem.name 0 + p.2)
  | none => mc

/-- One iteration of the `for m in months` loop of `get_annual_summary`,
updating the accumulated state in the source's statement order. -/
def processMonth (cfg : FamilyConfig) (st : AggState) (m : MonthData) :
    AggState :=
  let month_income := sumValues m.income
  let month_fixed := sumActuals m.fixed_expenses
  let month_variable := sumActuals m.variable_expenses
  let month_category := (m.category_expenses.map (fun p => sumActuals p.2)).sum
  let ebc1 := m.category_expenses.foldl (addCat cfg) st.expense_by_category
  let month_expenses := month_fixed + month_variable + month_category
  let mc1 := m.income.foldl (addIncome cfg) st.member_contributions
  let ebc2 := m.fixed_expenses.foldl addExpenseItem ebc1
  let ebc3 := m.variable_expenses.foldl addExpenseItem ebc2
  { total_income := st.total_income + month_income
    total_expenses := st.total_expenses + month_expenses
    expense_by_category := ebc3
    member_contributions := mc1
    monthly_summaries := st.monthly_summaries ++
      [{ month := m.month
         month_name := m.month_name
         income := month_income
         expenses := month_expenses
         savings := month_income - month_expenses
         fixed_expenses := month_fixed
         variable_expenses := month_variable
         category_expenses := month_category
         bank_balances := m.bank_balances }] }

/-- `member_contributions = {m["name"]: 0 for m in config["members"]}`:
a dict comprehension, so later duplicates of a name overwrite earlier ones. -/
def initMemberContributions (cfg : FamilyConfig) : List (String × Rat) :=
  cfg.members.foldl (fun d mem => dictInsert d mem.name 0) []

/-- `get_annual_summary(year)` (src/main.py lines 227-301) as a pure function
of the year, the month documents for that year (as returned by the
month-sorted query), and the family config.  `none` models the
`HTTPException(404, "No data for this year")` raised when `months` is empty. -/
def get_annual_summary (year : Int) (months : List MonthData)
    (cfg : FamilyConfig) : Option AnnualSummary :=
  if months = [] then none
  else
    let final := months.foldl (processMonth cfg)
      { total_income := 0
        total_expenses := 0
        expense_by_category := []
        member_contributions := initMemberContributions cfg
        monthly_summaries := [] }
    let avg_monthly_savings :=
      if months.length = 0 then 0
      else (final.total_income - final.total_expenses) / (months.length : Rat)
    let remaining_months : Int := 12 - (months.length : Int)
    some
      { year := year
        total_income := final.total_income
        total_expenses := final.total_expenses
        total_savings := final.total_income - final.total_expenses
        monthly_data := final.monthly_summaries
        expense_by_category := final.expense_by_category
        member_contributions := final.member_contributions
        savings_projection :=
          { current_savings := final.total_income - final.total_expenses
            avg_monthly_savings := avg_monthly_savings
            projected_annual_savings :=
              (final.total_income - final.total_expenses) +
                avg_monthly_savings * (remaining_months : Rat)
            months_tracked := months.length
            remaining_months := remaining_months } }

/-- A computed alert, one element of the list returned by `get_alerts`.
The per-call `uuid4` id is omitted (non-deterministic, never read). -/
structure Alert where
  alert_key : String
  month : String
  year : Int
  month_num : Int
  category : String
  item_name : String
  budget : Rat
  actual : Rat
  overage : Rat
  percentage_over : Rat
  deriving Repr, DecidableEq

/-- The alert dedup/dismissal key: Python
`f"{year}-{month_num}-{tag}-{name}"` where `tag` is `"fixed"`, `"variable"`,
or the literal category id. -/
def alertKey (m : MonthData) (tag : String) (e : ExpenseItem) : String :=
  toString m.year ++ "-" ++ toString m.month ++ "-" ++ tag ++ "-" ++ e.name

/-- `exp.get("actual", 0) > exp.get("budget", 0) and exp.get("budget", 0) > 0`. -/
def overBudget (e : ExpenseItem) : Prop :=
  e.budget < e.actual ∧ 0 < e.budget

instance (e : ExpenseItem) : Decidable (overBudget e) :=
  inferInstanceAs (Decidable (_ ∧ _))

/-- The alert record built in the `get_alerts` loop body.  The divisor of
`percentage_over` is `exp.get("budget", 1)`, which equals `e.budget` since the
field is always present (pydantic default). -/
def mkAlert (m : MonthData) (key cat : String) (e : ExpenseItem) : Alert :=
  { alert_key := key
    month := m.month_name
    year := m.year
    month_num := m.month
    category := cat
    item_name := e.name
    budget := e.budget
    actual := e.actual
    overage := e.actual - e.budget
    percentage_over := (e.actual - e.budget) / e.budget * 100 }

/-- One of the three per-source scan loops in `get_alerts`: emit an alert for
each over-budget item whose key is not in the dismissal log. -/
def sourceAlerts (dismissed : List String) (m : MonthData) (tag cat : String)
    (items : List ExpenseItem) : List Alert :=
  items.filterMap (fun e =>
    if overBudget e then
      if alertKey m tag e ∈ dismissed then none
      else some (mkAlert m (alertKey m tag e) cat e)
    else none)

/-- All alerts generated for one month document, in source-scan order: fixed
expenses, then variable expenses, then each category list in dict order. -/
def monthAlerts (cfg : FamilyConfig) (dismissed : List String) (m : MonthData) :
    List Alert :=
  sourceAlerts dismissed m "fixed" "Gastos Fijos" m.fixed_expenses ++
  sourceAlerts dismissed m "variable" "Gastos Variables" m.variable_expenses ++
  (m.category_expenses.map (fun p =>
    sourceAlerts dismissed m p.1 (resolveCategoryName cfg p.1) p.2)).flatten

/-- The unsorted alert list accumulated by the `for m in months` loop of
`get_alerts` — the encounter order: month documents in collection order, and
within a month, fixed then variable then category items. -/
def rawAlerts (months : List MonthData) (cfg : FamilyConfig)
    (dismissed : List String) : List Alert :=
  (months.map (monthAlerts cfg dismissed)).flatten

/-- Insert into a descending-sorted list: walk past elements with strictly
greater overage, so that (via the right fold in `sortAlerts`) an
earlier-generated alert ends up before later-generated alerts of equal
overage — the stability guarantee of Python `sorted`. -/
def insortAlert (a : Alert) : List Alert → List Alert
  | [] => [a]
  | b :: bs =>
    if a.overage < b.overage then b :: insortAlert a bs else a :: b :: bs

/-- `sorted(alerts, key=lambda x: x.get("overage", 0), reverse=True)`:
Python's sort is stable, so this is a stable descending sort on `overage`. -/
def sortAlerts (l : List Alert) : List Alert := l.foldr insortAlert []

/-- `get_alerts()` (src/main.py lines 303-372) as a pure function of the month
documents (in collection order — this query has no sort), the config, and the
dismissal log. -/
def get_alerts (months : List MonthData) (cfg : FamilyConfig)
    (dismissed : List String) : List Alert :=
  sortAlerts (rawAlerts months cfg dismissed)

/-- `dismiss_alert(alert_key)` (src/main.py lines 374-377): append the key to
the dismissal log (the `dismissed_at` timestamp is never read). -/
def dismiss_alert (log : List String) (alert_key : String) : List String :=
  log ++ [alert_key]

/-- The would-be alert keys scanned by `clear_all_alerts`, in scan order,
without any dismissal filtering (same key construction and same over-budget
condition as `get_alerts`). -/
def monthOverKeys (m : MonthData) : List String :=
  m.fixed_expenses.filterMap (fun e =>
    if overBudget e then some (alertKey m "fixed" e) else none) ++
  m.variable_expenses.filterMap (fun e =>
    if overBudget e then some (alertKey m "variable" e) else none) ++
  (m.category_expenses.map (fun p =>
    p.2.filterMap (fun e =>
      if overBudget e then some (alertKey m p.1 e) else none))).flatten

/-- One `find_one` + conditional `insert_one` + counter increment of
`clear_all_alerts`, acting on the current log and count. -/
def clearStep (st : List String × Nat) (k : String) : List String × Nat :=
  if k ∈ st.1 then st else (st.1 ++ [k], st.2 + 1)

/-- `clear_all_alerts()` (src/main.py lines 379-414): returns the final
dismissal log and the reported count of newly dismissed keys.  The
`find_one` inside the loop sees keys inserted by earlier iterations, which
`clearStep`'s membership test on the evolving log models. -/
def clear_all_alerts (months : List MonthData) (log : List String) :
    List String × Nat :=
  ((months.map monthOverKeys).flatten).foldl clearStep (log, 0)

/-- One data row of the "Resumen Anual" sheet written by `export_excel`:
(month name, income, total expenses, savings), computed by the formulas at
src/main.py lines 480-491. -/
def exportRow (m : MonthData) : String × Rat × Rat × Rat :=
  let income := sumValues m.income
  let fixed := sumActuals m.fixed_expenses
  let var := sumActuals m.variable_expenses
  let category := (m.category_expenses.map (fun p => sumActuals p.2)).sum
  let total_exp := fixed + var + category
  (m.month_name, income, total_exp, income - total_exp)

/-- `export_excel(year)` (src/main.py lines 458-498) restricted to its
computed content: the data rows of the annual sheet, one per month document in
query order, or `none` for the 404 raised when the year has no months. -/
def export_excel (year : Int) (months : List MonthData) :
    Option (List (String × Rat × Rat × Rat)) :=
  if months = [] then none else some (months.map exportRow)

/-- The per-month summary record spelled out with the source's formulas:
income = sum of the income mapping values, expenses = fixed + variable +
category actual sums, savings = income - expenses. -/
def summarizeMonth (m : MonthData) : MonthlySummary :=
  { month := m.month
    month_name := m.month_name
    income := sumValues m.income
    expenses := sumActuals m.fixed_expenses + sumActuals m.variable_expenses +
      (m.category_expenses.map (fun p => sumActuals p.2)).sum
    savings := sumValues m.income -
      (sumActuals m.fixed_expenses + sumActuals m.variable_expenses +
        (m.category_expenses.map (fun p => sumActuals p.2)).sum)
    fixed_expenses := sumActuals m.fixed_expenses
    variable_expenses := sumActuals m.variable_expenses
    category_expenses := (m.category_expenses.map (fun p => sumActuals p.2)).sum
    bank_balances := m.bank_balances }

theorem processMonth_monthly (cfg : FamilyConfig) (st : AggState)
    (m : MonthData) :
    (processMonth cfg st m).monthly_summaries =
      st.monthly_summaries ++ [summarizeMonth m] := rfl

theorem processMonth_total_income (cfg : FamilyConfig) (st : AggState)
    (m : MonthData) :
    (processMonth cfg st m).total_income =
      st.total_income + sumValues m.income := rfl

theorem processMonth_total_expenses (cfg : FamilyConfig) (st : AggState)
    (m : MonthData) :
    (processMonth cfg st m).total_expenses =
      st.total_expenses + (summarizeMonth m).expenses := rfl

theorem agg_monthly_summaries (cfg : FamilyConfig) (months : List MonthData) :
    ∀ st : AggState,
      (months.foldl (processMonth cfg) st).monthly_summaries =
        st.monthly_summaries ++ months.map summarizeMonth := by
  induction months with
  | nil => intro st; simp
  | cons m ms ih =>
    intro st
    rw [List.foldl_cons, ih, processMonth_monthly]
    simp

theorem agg_total_income (cfg : FamilyConfig) (months : List MonthData) :
    ∀ st : AggState,
      (months.foldl (processMonth cfg) st).total_income =
        st.total_income + (months.map (fun m => sumValues m.income)).sum := by
  induction months with
  | nil => intro st; simp
  | cons m ms ih =>
    intro st
    rw [List.foldl_cons, ih, processMonth_total_income]
    simp [add_assoc]

theorem agg_total_expenses (cfg : FamilyConfig) (months : List MonthData) :
    ∀ st : AggState,
      (months.foldl (processMonth cfg) st).total_expenses =
        st.total_expenses +
          (months.map (fun m => (summarizeMonth m).expenses)).sum := by
  induction months with
  | nil => intro st; simp
  | cons m ms ih =>
    intro st
    rw [List.foldl_cons, ih, processMonth_total_expenses]
    simp [add_assoc]

/-- C1: For every year with a non-empty set of N month records (handed over by
the month-ascending query), the annual summary has exactly N per-month
summaries in month-ascending order; each month's income is the sum of its
income mapping values, its expenses are fixed + variable + category actual
sums, its savings is income minus expenses (all spelled out in
`summarizeMonth`); `total_income` is the sum of the month incomes,
`total_expenses` the sum of the month expenses, and
`total_savings = total_income - total_expenses` exactly. -/
theorem annual_summary_per_month_totals (year : Int) (months : List MonthData)
    (cfg : FamilyConfig) (s : AnnualSummary)
    (hs : get_annual_summary year months cfg = some s)
    (hsorted : months.Pairwise (fun a b => a.month ≤ b.month)) :
    s.monthly_data = months.map summarizeMonth ∧
    s.monthly_data.length = months.length ∧
    s.monthly_data.Pairwise (fun a b => a.month ≤ b.month) ∧
    s.total_income = (s.monthly_data.map (fun md => md.income)).sum ∧
    s.total_expenses = (s.monthly_data.map (fun md => md.expenses)).sum ∧
    s.total_savings = s.total_income - s.total_expenses := by
  by_cases hm : months = []
  · simp [get_annual_summary, hm] at hs
  · rw [get_annual_summary, if_neg hm] at hs
    obtain rfl := Option.some_injective _ hs
    refine ⟨?_, ?_, ?_, ?_, ?_, ?_⟩
    · simpa using agg_monthly_summaries cfg months _
    · simp [agg_monthly_summaries]
    · simp only [agg_monthly_summaries]
      simp only [List.nil_append, List.pairwise_map]
      exact hsorted
    · simp only [agg_monthly_summaries, agg_total_income]
      simp [summarizeMonth, Function.comp_def]
    · simp only [agg_monthly_summaries, agg_total_expenses]
      simp [Function.comp_def]
    · rfl

/-- Closed witness for `annual_summary_per_month_totals` at a one-month
concrete input. -/
def mW1 : MonthData :=
  { year := 2024, month := 1, month_name := "Enero",
    income := [("n", 5)],
    fixed_expenses := [{ name := "F", budget := 1, actual := 2 }] }

theorem annual_summary_per_month_totals_witness :
    (∃ s, get_annual_summary 2024 [mW1] {} = some s ∧
      ([mW1].Pairwise (fun a b => a.month ≤ b.month)) ∧
      s.monthly_data = [mW1].map summarizeMonth ∧
      s.total_savings = s.total_income - s.total_expenses) := by
  rcases hs : get_annual_summary 2024 [mW1] {} with _ | s
  · exact absurd hs (by decide)
  · have h := annual_summary_per_month_totals 2024 [mW1] {} s hs (by decide)
    exact ⟨s, rfl, by decide, h.1, h.2.2.2.2.2⟩

/-- C8: the annual summary returns the no-data error iff the month list is
empty, and likewise for the spreadsheet export; on non-empty input both are
total and return a result. -/
theorem no_data_for_year_iff_empty (year : Int) (months : List MonthData)
    (cfg : FamilyConfig) :
    (get_annual_summary year months cfg = none ↔ months = []) ∧
    (export_excel year months = none ↔ months = []) := by
  constructor
  · rw [get_annual_summary]
    by_cases hm : months = [] <;> simp [hm]
  · rw [export_excel]
    by_cases hm : months = [] <;> simp [hm]

theorem exportRow_eq_summarize (m : MonthData) :
    exportRow m =
      ((summarizeMonth m).month_name, (summarizeMonth m).income,
        (summarizeMonth m).expenses, (summarizeMonth m).savings) := rfl

/-- C9: for the same year and month records, the spreadsheet export's
independently recomputed per-month rows (name, income, expenses, savings)
coincide exactly with the annual summary's per-month values, one row per
month in the same (ascending) order. -/
theorem export_rows_match_annual_summary (year : Int)
    (months : List MonthData) (cfg : FamilyConfig) (s : AnnualSummary)
    (hs : get_annual_summary year months cfg = some s) :
    export_excel year months =
      some (s.monthly_data.map
        (fun md => (md.month_name, md.income, md.expenses, md.savings))) := by
  by_cases hm : months = []
  · simp [get_annual_summary, hm] at hs
  · rw [get_annual_summary, if_neg hm] at hs
    obtain rfl := Option.some_injective _ hs
    rw [export_excel, if_neg hm]
    simp only [agg_monthly_summaries, List.nil_append, List.map_map]
    refine congrArg some (List.map_congr_left fun m _ => ?_)
    exact exportRow_eq_summarize m

def mW9 : MonthData :=
  { year := 2025, month := 3, month_name := "Marzo",
    income := [("a", 10), ("b", 20)],
    variable_expenses := [{ name := "V", budget := 4, actual := 7 }],
    category_expenses := [("c", [{ name := "E", budget := 0, actual := 5 }])] }

/-- Closed witness for `export_rows_match_annual_summary`. -/
theorem export_rows_match_annual_summary_witness :
    ∃ s, get_annual_summary 2025 [mW9] {} = some s ∧
      export_excel 2025 [mW9] =
        some (s.monthly_data.map
          (fun md => (md.month_name, md.income, md.expenses, md.savings))) := by
  rcases hs : get_annual_summary 2025 [mW9] {} with _ | s
  · exact absurd hs (by decide)
  · exact ⟨s, rfl, export_rows_match_annual_summary 2025 [mW9] {} s hs⟩

theorem mem_keys_dictInsert (d : List (String × Rat)) (k : String) (v : Rat)
    (l : String) :
    l ∈ (dictInsert d k v).map Prod.fst ↔ l = k ∨ l ∈ d.map Prod.fst := by
  induction d with
  | nil => simp [dictInsert]
  | cons p ps ih =>
    rw [dictInsert]
    by_cases h : p.1 = k <;> simp [h, ih] <;> tauto

theorem keys_foldl_addExpenseItem (items : List ExpenseItem)
    (d : List (String × Rat)) (l : String) (h : l ∈ d.map Prod.fst) :
    l ∈ (items.foldl addExpenseItem d).map Prod.fst := by
  induction items generalizing d with
  | nil => exact h
  | cons e es ih =>
    exact ih _ ((mem_keys_dictInsert _ _ _ _).mpr (Or.inr h))

theorem keys_foldl_addCat_mono (cfg : FamilyConfig)
    (cats : List (String × List ExpenseItem)) (d : List (String × Rat))
    (l : String) (h : l ∈ d.map Prod.fst) :
    l ∈ (cats.foldl (addCat cfg) d).map Prod.fst := by
  induction cats generalizing d with
  | nil => exact h
  | cons c cs ih =>
    exact ih _ ((mem_keys_dictInsert _ _ _ _).mpr (Or.inr h))

theorem keys_foldl_addCat_mem (cfg : FamilyConfig)
    (cats : List (String × List ExpenseItem))
    (p : String × List ExpenseItem) (hp : p ∈ cats) :
    ∀ d : List (String × Rat),
      resolveCategoryName cfg p.1 ∈ (cats.foldl (addCat cfg) d).map Prod.fst := by
  induction cats with
  | nil => cases hp
  | cons c cs ih =>
    intro d
    rcases List.mem_cons.mp hp with rfl | hp
    · exact keys_foldl_addCat_mono cfg cs _ _
        ((mem_keys_dictInsert _ _ _ _).mpr (Or.inl rfl))
    · exact ih hp _

theorem processMonth_ebc (cfg : FamilyConfig) (st : AggState) (m : MonthData) :
    (processMonth cfg st m).expense_by_category =
      m.variable_expenses.foldl addExpenseItem
        (m.fixed_expenses.foldl addExpenseItem
          (m.category_expenses.foldl (addCat cfg) st.expense_by_category)) :=
  rfl

theorem keys_processMonth_mono (cfg : FamilyConfig) (st : AggState)
    (m : MonthData) (l : String)
    (h : l ∈ st.expense_by_category.map Prod.fst) :
    l ∈ (processMonth cfg st m).expense_by_category.map Prod.fst := by
  rw [processMonth_ebc]
  exact keys_foldl_addExpenseItem _ _ _
    (keys_foldl_addExpenseItem _ _ _ (keys_foldl_addCat_mono cfg _ _ _ h))

theorem keys_processMonth_mem (cfg : FamilyConfig) (st : AggState)
    (m : MonthData) (p : String × List ExpenseItem)
    (hp : p ∈ m.category_expenses) :
    resolveCategoryName cfg p.1 ∈
      (processMonth cfg st m).expense_by_category.map Prod.fst := by
  rw [processMonth_ebc]
  exact keys_foldl_addExpenseItem _ _ _
    (keys_foldl_addExpenseItem _ _ _ (keys_foldl_addCat_mem cfg _ p hp _))

theorem keys_agg_mono (cfg : FamilyConfig) (months : List MonthData) :
    ∀ (st : AggState) (l : String),
      l ∈ st.expense_by_category.map Prod.fst →
      l ∈ (months.foldl (processMonth cfg) st).expense_by_category.map
        Prod.fst := by
  induction months with
  | nil => exact fun _ _ h => h
  | cons m ms ih =>
    exact fun st l h => ih _ _ (keys_processMonth_mono cfg st m l h)

theorem keys_agg_mem (cfg : FamilyConfig) (months : List MonthData)
    (m : MonthData) (p : String × List ExpenseItem) (hm : m ∈ months)
    (hp : p ∈ m.category_expenses) :
    ∀ st : AggState,
      resolveCategoryName cfg p.1 ∈
        (months.foldl (processMonth cfg) st).expense_by_category.map
          Prod.fst := by
  induction months with
  | nil => cases hm
  | cons m0 ms ih =>
    intro st
    rw [List.foldl_cons]
    rcases List.mem_cons.mp hm with rfl | hm
    · exact keys_agg_mono cfg ms _ _ (keys_processMonth_mem cfg st m p hp)
    · exact ih hm _

/-- C10 (implicit): every category id occurring in some month's
`category_expenses` contributes an entry to `expense_by_category` under its
resolved label, even when its item list is empty or totals 0 — the label can
be present with value 0. -/
theorem category_label_present_even_if_zero (year : Int)
    (months : List MonthData) (cfg : FamilyConfig) (s : AnnualSummary)
    (hs : get_annual_summary year months cfg = some s)
    (m : MonthData) (hm : m ∈ months) (p : String × List ExpenseItem)
    (hp : p ∈ m.category_expenses) :
    resolveCategoryName cfg p.1 ∈ s.expense_by_category.map Prod.fst := by
  by_cases hmm : months = []
  · simp [get_annual_summary, hmm] at hs
  · rw [get_annual_summary, if_neg hmm] at hs
    obtain rfl := Option.some_injective _ hs
    exact keys_agg_mem cfg months m p hm hp _

def mW10 : MonthData :=
  { year := 2024, month := 1, month_name := "Enero",
    category_expenses := [("c1", [])] }

def cfgW10 : FamilyConfig :=
  { categories := [{ id := "c1", name := "Casa" }] }

/-- Closed witness for `category_label_present_even_if_zero`: a category id
with an empty item list still yields its label, with accumulated value 0. -/
theorem category_label_present_even_if_zero_witness :
    ∃ s, get_annual_summary 2024 [mW10] cfgW10 = some s ∧
      "Casa" ∈ s.expense_by_category.map Prod.fst ∧
      dictGet s.expense_by_category "Casa" 0 = 0 := by
  rcases hs : get_annual_summary 2024 [mW10] cfgW10 with _ | s
  · exact absurd hs (by decide)
  · have h := category_label_present_even_if_zero 2024 [mW10] cfgW10 s hs
      mW10 (by decide) ("c1", []) (by decide)
    refine ⟨s, rfl, h, ?_⟩
    have hs2 := hs
    rw [get_annual_summary] at hs2
    simp only [if_neg (by decide : ¬([mW10] : List MonthData) = [])] at hs2
    obtain rfl := Option.some_injective _ hs2.symm
    simp [processMonth_ebc, mW10, cfgW10, addCat, resolveCategoryName,
      sumActuals, dictInsert, dictGet]

theorem dictGet_dictInsert_self (d : List (String × Rat)) (k : String)
    (v x : Rat) : dictGet (dictInsert d k v) k x = v := by
  induction d with
  | nil => simp [dictInsert, dictGet]
  | cons p ps ih =>
    rw [dictInsert]
    by_cases h : p.1 = k
    · simp [h, dictGet]
    · simp [dictGet, h, ih]

theorem dictGet_dictInsert_ne (d : List (String × Rat)) (k : String)
    (v x : Rat) (l : String) (h : ¬l = k) :
    dictGet (dictInsert d k v) l x = dictGet d l x := by
  induction d with
  | nil => simp [dictInsert, dictGet, Ne.symm h]
  | cons p ps ih =>
    rw [dictInsert]
    by_cases hp : p.1 = k
    · simp only [if_pos hp, dictGet]
      rw [hp]
      simp [Ne.symm h]
    · simp [if_neg hp, dictGet, ih]

theorem dictGet_bump (d : List (String × Rat)) (k : String) (v : Rat)
    (l : String) :
    dictGet (dictInsert d k (dictGet d k 0 + v)) l 0 =
      dictGet d l 0 + (if k = l then v else 0) := by
  by_cases h : l = k
  · subst h
    rw [dictGet_dictInsert_self]
    simp
  · rw [dictGet_dictInsert_ne _ _ _ _ _ h]
    rw [if_neg (Ne.symm h), add_zero]

theorem dictGet_addCat (cfg : FamilyConfig) (d : List (String × Rat))
    (p : String × List ExpenseItem) (L : String) :
    dictGet (addCat cfg d p) L 0 =
      dictGet d L 0 +
        (if resolveCategoryName cfg p.1 = L then sumActuals p.2 else 0) := by
  simp only [addCat]
  exact dictGet_bump d _ _ L

theorem dictGet_addExpenseItem (d : List (String × Rat)) (e : ExpenseItem)
    (L : String) :
    dictGet (addExpenseItem d e) L 0 =
      dictGet d L 0 + (if e.name = L then e.actual else 0) := by
  simp only [addExpenseItem]
  exact dictGet_bump d _ _ L

theorem dictGet_foldl_addCat (cfg : FamilyConfig)
    (cats : List (String × List ExpenseItem)) (L : String) :
    ∀ d, dictGet (cats.foldl (addCat cfg) d) L 0 =
      dictGet d L 0 +
        (cats.map (fun p =>
          if resolveCategoryName cfg p.1 = L then sumActuals p.2 else 0)).sum := by
  induction cats with
  | nil => simp
  | cons c cs ih =>
    intro d
    rw [List.foldl_cons, ih, dictGet_addCat]
    simp [add_assoc]

theorem dictGet_foldl_addExpenseItem (items : List ExpenseItem) (L : String) :
    ∀ d, dictGet (items.foldl addExpenseItem d) L 0 =
      dictGet d L 0 +
        (items.map (fun e => if e.name = L then e.actual else 0)).sum := by
  induction items with
  | nil => simp
  | cons e es ih =>
    intro d
    rw [List.foldl_cons, ih, dictGet_addExpenseItem]
    simp [add_assoc]

/-- The per-month contribution of display label `L` to `expense_by_category`:
the totals of category lists whose id resolves to `L` (with the `"Otros"`
fallback built into `resolveCategoryName`), plus the actuals of fixed-expense
items named `L`, plus the actuals of variable-expense items named `L`. -/
def labelTotal (cfg : FamilyConfig) (L : String) (m : MonthData) : Rat :=
  (m.category_expenses.map (fun p =>
    if resolveCategoryName cfg p.1 = L then sumActuals p.2 else 0)).sum +
  (m.fixed_expenses.map (fun e => if e.name = L then e.actual else 0)).sum +
  (m.variable_expenses.map (fun e => if e.name = L then e.actual else 0)).sum

theorem dictGet_processMonth (cfg : FamilyConfig) (st : AggState)
    (m : MonthData) (L : String) :
    dictGet (processMonth cfg st m).expense_by_category L 0 =
      dictGet st.expense_by_category L 0 + labelTotal cfg L m := by
  rw [processMonth_ebc, dictGet_foldl_addExpenseItem,
    dictGet_foldl_addExpenseItem, dictGet_foldl_addCat, labelTotal]
  ring

theorem dictGet_agg (cfg : FamilyConfig) (months : List MonthData)
    (L : String) :
    ∀ st, dictGet (months.foldl (processMonth cfg) st).expense_by_category L 0 =
      dictGet st.expense_by_category L 0 +
        (months.map (labelTotal cfg L)).sum := by
  induction months with
  | nil => simp
  | cons m ms ih =>
    intro st
    rw [List.foldl_cons, ih, dictGet_processMonth]
    simp [add_assoc]

/-- C2: the value of `expense_by_category` at any display label `L` is the
merged total of the three sources — category lists resolved to `L` (falling
back to "Otros" for unknown ids), fixed items named `L`, and variable items
named `L` — summed over all months; name collisions between the sources
therefore accumulate into the same entry. -/
theorem expense_by_category_merges_three_sources (year : Int)
    (months : List MonthData) (cfg : FamilyConfig) (s : AnnualSummary)
    (hs : get_annual_summary year months cfg = some s) (L : String) :
    dictGet s.expense_by_category L 0 =
      (months.map (labelTotal cfg L)).sum := by
  by_cases hm : months = []
  · simp [get_annual_summary, hm] at hs
  · rw [get_annual_summary, if_neg hm] at hs
    obtain rfl := Option.some_injective _ hs
    have h := dictGet_agg cfg months L
      { total_income := 0, total_expenses := 0, expense_by_category := [],
        member_contributions := initMemberContributions cfg,
        monthly_summaries := [] }
    simpa [dictGet] using h

def mW2 : MonthData :=
  { year := 2024, month := 2, month_name := "Febrero",
    fixed_expenses := [{ name := "Luz", budget := 10, actual := 30 }],
    variable_expenses := [{ name := "Luz", budget := 2, actual := 4 }],
    category_expenses :=
      [("c", [{ name := "Foco", budget := 0, actual := 5 }]),
       ("zz", [{ name := "X", budget := 0, actual := 7 }])] }

def cfgW2 : FamilyConfig :=
  { categories := [{ id := "c", name := "Luz" }] }

/-- Closed witness for `expense_by_category_merges_three_sources`: a
fixed-expense item, a variable-expense item and a category share the name
"Luz" and their totals merge into one entry (5 + 30 + 4 = 39); the unknown
category id "zz" lands under "Otros". -/
theorem expense_by_category_merges_three_sources_witness :
    ∃ s, get_annual_summary 2024 [mW2] cfgW2 = some s ∧
      dictGet s.expense_by_category "Luz" 0 =
        ([mW2].map (labelTotal cfgW2 "Luz")).sum ∧
      ([mW2].map (labelTotal cfgW2 "Luz")).sum = 39 ∧
      dictGet s.expense_by_category "Otros" 0 =
        ([mW2].map (labelTotal cfgW2 "Otros")).sum ∧
      ([mW2].map (labelTotal cfgW2 "Otros")).sum = 7 := by
  rcases hs : get_annual_summary 2024 [mW2] cfgW2 with _ | s
  · exact absurd hs (by decide)
  · have hc : resolveCategoryName cfgW2 "c" = "Luz" := by decide
    have hzz : resolveCategoryName cfgW2 "zz" = "Otros" := by decide
    refine ⟨s, rfl,
      expense_by_category_merges_three_sources 2024 [mW2] cfgW2 s hs "Luz",
      ?_,
      expense_by_category_merges_three_sources 2024 [mW2] cfgW2 s hs "Otros",
      ?_⟩ <;>
    norm_num [labelTotal, mW2, sumActuals, hc, hzz,
      (by decide : ¬("Luz" : String) = "Otros"),
      (by decide : ¬("Otros" : String) = "Luz")]

theorem sortAlerts_cons (a : Alert) (l : List Alert) :
    sortAlerts (a :: l) = insortAlert a (sortAlerts l) := rfl

theorem mem_insortAlert (a x : Alert) (l : List Alert) :
    x ∈ insortAlert a l ↔ x = a ∨ x ∈ l := by
  induction l with
  | nil => simp [insortAlert]
  | cons b bs ih =>
    rw [insortAlert]
    by_cases h : a.overage < b.overage
    · rw [if_pos h]
      simp only [List.mem_cons, ih]
      tauto
    · rw [if_neg h]
      simp only [List.mem_cons]

theorem mem_sortAlerts (x : Alert) (l : List Alert) :
    x ∈ sortAlerts l ↔ x ∈ l := by
  induction l with
  | nil => simp [sortAlerts]
  | cons a as ih =>
    rw [sortAlerts_cons, mem_insortAlert, ih, List.mem_cons]

theorem pairwise_insortAlert (a : Alert) (l : List Alert)
    (hl : l.Pairwise (fun x y => y.overage ≤ x.overage)) :
    (insortAlert a l).Pairwise (fun x y => y.overage ≤ x.overage) := by
  induction l with
  | nil => simp [insortAlert]
  | cons b bs ih =>
    rcases List.pairwise_cons.mp hl with ⟨hb, hbs⟩
    rw [insortAlert]
    by_cases h : a.overage < b.overage
    · rw [if_pos h]
      refine List.pairwise_cons.mpr ⟨?_, ih hbs⟩
      intro y hy
      rcases (mem_insortAlert a y bs).mp hy with rfl | hy
      · exact le_of_lt h
      · exact hb y hy
    · rw [if_neg h]
      refine List.pairwise_cons.mpr ⟨?_, hl⟩
      intro y hy
      rcases List.mem_cons.mp hy with rfl | hy
      · exact le_of_not_lt h
      · exact le_trans (hb y hy) (le_of_not_lt h)

theorem sortAlerts_pairwise (l : List Alert) :
    (sortAlerts l).Pairwise (fun x y => y.overage ≤ x.overage) := by
  induction l with
  | nil => simp [sortAlerts]
  | cons a as ih =>
    rw [sortAlerts_cons]
    exact pairwise_insortAlert a _ ih

theorem filter_overage_insortAlert (a : Alert) (l : List Alert) (v : Rat) :
    (insortAlert a l).filter (fun x => decide (x.overage = v)) =
      if a.overage = v then
        a :: l.filter (fun x => decide (x.overage = v))
      else l.filter (fun x => decide (x.overage = v)) := by
  induction l with
  | nil =>
    by_cases h : a.overage = v <;> simp [insortAlert, h]
  | cons b bs ih =>
    rw [insortAlert]
    by_cases hab : a.overage < b.overage
    · rw [if_pos hab]
      by_cases ha : a.overage = v
      · have hb : ¬b.overage = v := by
          intro hbv
          rw [ha, hbv] at hab
          exact lt_irrefl v hab
        simp [List.filter_cons, ha, hb, ih]
      · simp [List.filter_cons, ha, ih]
    · rw [if_neg hab]
      by_cases ha : a.overage = v <;> simp [List.filter_cons, ha]

theorem filter_overage_sortAlerts (l : List Alert) (v : Rat) :
    (sortAlerts l).filter (fun x => decide (x.overage = v)) =
      l.filter (fun x => decide (x.overage = v)) := by
  induction l with
  | nil => rfl
  | cons a as ih =>
    rw [sortAlerts_cons, filter_overage_insortAlert]
    by_cases ha : a.overage = v <;> simp [ha, ih, List.filter_cons]

/-- C3 (amended): the alert list is sorted in descending order of overage, and
among alerts with equal overage the order is the encounter order of
`rawAlerts` — month records in collection order first, then source order
(fixed, variable, category lists), then list order within a source.  (The
original claim put source order before month order; see the
counterexample.) -/
theorem alerts_sorted_desc_ties_encounter_order (months : List MonthData)
    (cfg : FamilyConfig) (dismissed : List String) :
    (get_alerts months cfg dismissed).Pairwise
      (fun a b => b.overage ≤ a.overage) ∧
    ∀ v : Rat,
      (get_alerts months cfg dismissed).filter
          (fun a => decide (a.overage = v)) =
        (rawAlerts months cfg dismissed).filter
          (fun a => decide (a.overage = v)) :=
  ⟨sortAlerts_pairwise _, fun v => filter_overage_sortAlerts _ v⟩

def mTieA : MonthData :=
  { year := 2024, month := 1, month_name := "Enero",
    variable_expenses := [{ name := "a", budget := 10, actual := 60 }] }

def mTieB : MonthData :=
  { year := 2024, month := 2, month_name := "Febrero",
    fixed_expenses := [{ name := "b", budget := 10, actual := 60 }] }

/-- Counterexample to C3 as stated: both alerts have the same overage 50, so
the claimed tie-break (source order first: the fixed-expense alert of month 2
before the variable-expense alert of month 1) predicts the order
[(2, fixed), (1, variable)]; the code instead keeps encounter order with the
month record outermost, producing [(1, variable), (2, fixed)]. -/
theorem alerts_tie_order_counterexample :
    ((get_alerts [mTieA, mTieB] {} []).map
        (fun a => (a.month_num, a.category, a.overage)) =
      [(1, "Gastos Variables", 50), (2, "Gastos Fijos", 50)]) ∧
    ¬ ((get_alerts [mTieA, mTieB] {} []).map
        (fun a => (a.month_num, a.category, a.overage)) =
      [(2, "Gastos Fijos", 50), (1, "Gastos Variables", 50)]) := by
  have h : (get_alerts [mTieA, mTieB] {} []).map
      (fun a => (a.month_num, a.category, a.overage)) =
      [(1, "Gastos Variables", 50), (2, "Gastos Fijos", 50)] := by
    norm_num [get_alerts, rawAlerts, monthAlerts, sourceAlerts, mkAlert,
      overBudget, sortAlerts, insortAlert, mTieA, mTieB,
      List.filterMap_cons]
  refine ⟨h, ?_⟩
  rw [h]
  decide

theorem mem_sourceAlerts (dis : List String) (m : MonthData)
    (tag cat : String) (items : List ExpenseItem) (a : Alert) :
    a ∈ sourceAlerts dis m tag cat items ↔
      ∃ e ∈ items, overBudget e ∧ alertKey m tag e ∉ dis ∧
        a = mkAlert m (alertKey m tag e) cat e := by
  rw [sourceAlerts, List.mem_filterMap]
  constructor
  · rintro ⟨e, he, hfe⟩
    by_cases ho : overBudget e
    · rw [if_pos ho] at hfe
      by_cases hd : alertKey m tag e ∈ dis
      · rw [if_pos hd] at hfe
        cases hfe
      · rw [if_neg hd] at hfe
        exact ⟨e, he, ho, hd, (Option.some_injective _ hfe).symm⟩
    · rw [if_neg ho] at hfe
      cases hfe
  · rintro ⟨e, he, ho, hd, rfl⟩
    exact ⟨e, he, by rw [if_pos ho, if_neg hd]⟩

theorem mem_monthAlerts (cfg : FamilyConfig) (dis : List String)
    (m : MonthData) (a : Alert) :
    a ∈ monthAlerts cfg dis m ↔
      a ∈ sourceAlerts dis m "fixed" "Gastos Fijos" m.fixed_expenses ∨
      a ∈ sourceAlerts dis m "variable" "Gastos Variables"
        m.variable_expenses ∨
      ∃ p ∈ m.category_expenses,
        a ∈ sourceAlerts dis m p.1 (resolveCategoryName cfg p.1) p.2 := by
  rw [monthAlerts]
  simp only [List.mem_append, List.mem_flatten, List.mem_map, or_assoc]
  constructor
  · rintro (h | h | ⟨_, ⟨p, hp, rfl⟩, ha⟩)
    · exact Or.inl h
    · exact Or.inr (Or.inl h)
    · exact Or.inr (Or.inr ⟨p, hp, ha⟩)
  · rintro (h | h | ⟨p, hp, ha⟩)
    · exact Or.inl h
    · exact Or.inr (Or.inl h)
    · exact Or.inr (Or.inr ⟨_, ⟨p, hp, rfl⟩, ha⟩)

theorem mem_rawAlerts (months : List MonthData) (cfg : FamilyConfig)
    (dis : List String) (a : Alert) :
    a ∈ rawAlerts months cfg dis ↔
      ∃ m ∈ months, a ∈ monthAlerts cfg dis m := by
  rw [rawAlerts]
  simp only [List.mem_flatten, List.mem_map]
  constructor
  · rintro ⟨_, ⟨m, hm, rfl⟩, ha⟩
    exact ⟨m, hm, ha⟩
  · rintro ⟨m, hm, ha⟩
    exact ⟨_, ⟨m, hm, rfl⟩, ha⟩

/-- Every alert of `get_alerts` comes from some month record and from one of
the three scanned expense sources, as the alert built from an over-budget,
non-dismissed item. -/
theorem exists_item_of_mem_get_alerts (months : List MonthData)
    (cfg : FamilyConfig) (dis : List String) (a : Alert)
    (ha : a ∈ get_alerts months cfg dis) :
    ∃ m ∈ months, ∃ tag cat : String, ∃ e : ExpenseItem,
      overBudget e ∧ alertKey m tag e ∉ dis ∧
      a = mkAlert m (alertKey m tag e) cat e := by
  rw [get_alerts, mem_sortAlerts, mem_rawAlerts] at ha
  obtain ⟨m, hm, ha⟩ := ha
  rcases (mem_monthAlerts cfg dis m a).mp ha with h | h | ⟨p, _, h⟩ <;>
  · obtain ⟨e, _, ho, hd, rfl⟩ := (mem_sourceAlerts _ _ _ _ _ _).mp h
    exact ⟨m, hm, _, _, e, ho, hd, rfl⟩

/-- C4: an item yields an alert iff its actual strictly exceeds its budget,
its budget is strictly positive, and its key is not dismissed: every emitted
alert satisfies the condition (so a budget-0 item never alerts), and
conversely every over-budget non-dismissed item of any of the three sources
of any month yields its alert in the output. -/
theorem alert_iff_actual_over_positive_budget (months : List MonthData)
    (cfg : FamilyConfig) (dismissed : List String) :
    (∀ a ∈ get_alerts months cfg dismissed,
      a.budget < a.actual ∧ 0 < a.budget ∧ a.alert_key ∉ dismissed) ∧
    (∀ m ∈ months, ∀ e ∈ m.fixed_expenses, overBudget e →
      alertKey m "fixed" e ∉ dismissed →
      mkAlert m (alertKey m "fixed" e) "Gastos Fijos" e ∈
        get_alerts months cfg dismissed) ∧
    (∀ m ∈ months, ∀ e ∈ m.variable_expenses, overBudget e →
      alertKey m "variable" e ∉ dismissed →
      mkAlert m (alertKey m "variable" e) "Gastos Variables" e ∈
        get_alerts months cfg dismissed) ∧
    (∀ m ∈ months, ∀ p ∈ m.category_expenses, ∀ e ∈ p.2, overBudget e →
      alertKey m p.1 e ∉ dismissed →
      mkAlert m (alertKey m p.1 e) (resolveCategoryName cfg p.1) e ∈
        get_alerts months cfg dismissed) := by
  refine ⟨?_, ?_, ?_, ?_⟩
  · intro a ha
    obtain ⟨m, _, tag, cat, e, ho, hd, rfl⟩ :=
      exists_item_of_mem_get_alerts months cfg dismissed a ha
    exact ⟨ho.1, ho.2, hd⟩
  · intro m hm e he ho hd
    rw [get_alerts, mem_sortAlerts, mem_rawAlerts]
    refine ⟨m, hm, (mem_monthAlerts cfg dismissed m _).mpr (Or.inl ?_)⟩
    exact (mem_sourceAlerts _ _ _ _ _ _).mpr ⟨e, he, ho, hd, rfl⟩
  · intro m hm e he ho hd
    rw [get_alerts, mem_sortAlerts, mem_rawAlerts]
    refine ⟨m, hm,
      (mem_monthAlerts cfg dismissed m _).mpr (Or.inr (Or.inl ?_))⟩
    exact (mem_sourceAlerts _ _ _ _ _ _).mpr ⟨e, he, ho, hd, rfl⟩
  · intro m hm p hp e he ho hd
    rw [get_alerts, mem_sortAlerts, mem_rawAlerts]
    refine ⟨m, hm,
      (mem_monthAlerts cfg dismissed m _).mpr (Or.inr (Or.inr ⟨p, hp, ?_⟩))⟩
    exact (mem_sourceAlerts _ _ _ _ _ _).mpr ⟨e, he, ho, hd, rfl⟩

def eW4 : ExpenseItem := { name := "R", budget := 100, actual := 150 }

def mW4 : MonthData :=
  { year := 2024, month := 5, month_name := "Mayo",
    fixed_expenses := [eW4] }

/-- Closed witness for `alert_iff_actual_over_positive_budget`: a concrete
over-budget fixed expense produces its alert. -/
theorem alert_iff_actual_over_positive_budget_witness :
    mkAlert mW4 (alertKey mW4 "fixed" eW4) "Gastos Fijos" eW4 ∈
      get_alerts [mW4] {} [] :=
  (alert_iff_actual_over_positive_budget [mW4] {} []).2.1 mW4
    (by simp) eW4 (by simp [mW4]) (by constructor <;> norm_num [eW4])
    (by simp)

/-- C7: every emitted alert carries `overage = actual - budget` and
`percentage_over = (actual - budget) / budget * 100`, with `budget > 0`
guaranteed, so the division is by a nonzero number. -/
theorem alert_overage_and_percentage (months : List MonthData)
    (cfg : FamilyConfig) (dismissed : List String) :
    ∀ a ∈ get_alerts months cfg dismissed,
      a.overage = a.actual - a.budget ∧ 0 < a.budget ∧
      a.percentage_over = (a.actual - a.budget) / a.budget * 100 := by
  intro a ha
  obtain ⟨m, _, tag, cat, e, ho, _, rfl⟩ :=
    exists_item_of_mem_get_alerts months cfg dismissed a ha
  exact ⟨rfl, ho.2, rfl⟩

def eW7 : ExpenseItem := { name := "Renta", budget := 1000, actual := 1200 }

def mW7 : MonthData :=
  { year := 2024, month := 1, month_name := "Enero",
    fixed_expenses := [eW7] }

/-- Closed witness for `alert_overage_and_percentage`, on the spec's example:
budget 1000 and actual 1200 give overage 200 and percentage_over 20. -/
theorem alert_overage_and_percentage_witness :
    ((mkAlert mW7 (alertKey mW7 "fixed" eW7) "Gastos Fijos" eW7).overage =
        (mkAlert mW7 (alertKey mW7 "fixed" eW7) "Gastos Fijos" eW7).actual -
          (mkAlert mW7 (alertKey mW7 "fixed" eW7) "Gastos Fijos" eW7).budget ∧
      0 < (mkAlert mW7 (alertKey mW7 "fixed" eW7) "Gastos Fijos" eW7).budget ∧
      (mkAlert mW7 (alertKey mW7 "fixed" eW7) "Gastos Fijos"
          eW7).percentage_over =
        ((mkAlert mW7 (alertKey mW7 "fixed" eW7) "Gastos Fijos" eW7).actual -
            (mkAlert mW7 (alertKey mW7 "fixed" eW7) "Gastos Fijos"
              eW7).budget) /
          (mkAlert mW7 (alertKey mW7 "fixed" eW7) "Gastos Fijos" eW7).budget *
          100) ∧
    (mkAlert mW7 (alertKey mW7 "fixed" eW7) "Gastos Fijos" eW7).overage =
      200 ∧
    (mkAlert mW7 (alertKey mW7 "fixed" eW7) "Gastos Fijos"
      eW7).percentage_over = 20 := by
  refine ⟨alert_overage_and_percentage [mW7] {} [] _ ?_, ?_, ?_⟩
  · norm_num [get_alerts, rawAlerts, monthAlerts, sourceAlerts, mkAlert,
      overBudget, sortAlerts, insortAlert, mW7, eW7, List.filterMap_cons]
  · norm_num [mkAlert, eW7]
  · norm_num [mkAlert, eW7]

theorem insortAlert_eq_cons (a : Alert) (l : List Alert)
    (h : ∀ x ∈ l, x.overage ≤ a.overage) : insortAlert a l = a :: l := by
  cases l with
  | nil => rfl
  | cons b bs =>
    rw [insortAlert, if_neg (not_lt.mpr (h b (List.mem_cons_self b bs)))]

theorem filter_insortAlert_pos (p : Alert → Bool) (a : Alert) (l : List Alert)
    (hl : l.Pairwise (fun x y => y.overage ≤ x.overage)) (ha : p a = true) :
    (insortAlert a l).filter p = insortAlert a (l.filter p) := by
  induction l with
  | nil => simp [insortAlert, List.filter_cons, ha]
  | cons b bs ih =>
    rcases List.pairwise_cons.mp hl with ⟨hb, hbs⟩
    rw [insortAlert]
    by_cases hab : a.overage < b.overage
    · rw [if_pos hab, List.filter_cons, List.filter_cons]
      by_cases hpb : p b = true
      · rw [if_pos hpb, if_pos hpb, ih hbs, insortAlert, if_pos hab]
      · rw [if_neg hpb, if_neg hpb, ih hbs]
    · rw [if_neg hab, List.filter_cons, if_pos ha]
      rw [insortAlert_eq_cons]
      intro x hx
      rcases List.mem_filter.mp hx with ⟨hx, _⟩
      rcases List.mem_cons.mp hx with rfl | hx
      · exact le_of_not_lt hab
      · exact le_trans (hb x hx) (le_of_not_lt hab)

theorem filter_insortAlert_neg (p : Alert → Bool) (a : Alert) (l : List Alert)
    (ha : ¬p a = true) :
    (insortAlert a l).filter p = l.filter p := by
  induction l with
  | nil => simp [insortAlert, List.filter_cons, ha]
  | cons b bs ih =>
    rw [insortAlert]
    by_cases hab : a.overage < b.overage
    · rw [if_pos hab, List.filter_cons, List.filter_cons]
      by_cases hpb : p b = true
      · rw [if_pos hpb, if_pos hpb, ih]
      · rw [if_neg hpb, if_neg hpb, ih]
    · rw [if_neg hab, List.filter_cons, if_neg ha]

theorem sortAlerts_filter (p : Alert → Bool) (l : List Alert) :
    (sortAlerts l).filter p = sortAlerts (l.filter p) := by
  induction l with
  | nil => rfl
  | cons a as ih =>
    rw [sortAlerts_cons, List.filter_cons]
    by_cases hpa : p a = true
    · rw [if_pos hpa, sortAlerts_cons, ← ih,
        filter_insortAlert_pos p a _ (sortAlerts_pairwise as) hpa]
    · rw [if_neg hpa, ← ih, filter_insortAlert_neg p a _ hpa]

theorem sourceAlerts_append_filter (dis : List String) (k : String)
    (m : MonthData) (tag cat : String) (items : List ExpenseItem) :
    sourceAlerts (dis ++ [k]) m tag cat items =
      (sourceAlerts dis m tag cat items).filter
        (fun a => decide (¬a.alert_key = k)) := by
  induction items with
  | nil => rfl
  | cons e es ih =>
    simp only [sourceAlerts, List.filterMap_cons] at ih ⊢
    by_cases ho : overBudget e
    · by_cases hd : alertKey m tag e ∈ dis
      · have hd2 : alertKey m tag e ∈ dis ++ [k] :=
          List.mem_append_left _ hd
        rw [if_pos ho, if_pos ho, if_pos hd, if_pos hd2]
        exact ih
      · by_cases hk : alertKey m tag e = k
        · have hd2 : alertKey m tag e ∈ dis ++ [k] := by simp [hk]
          rw [if_pos ho, if_pos ho, if_pos hd2, if_neg hd, List.filter_cons,
            if_neg (by simp [mkAlert, hk])]
          exact ih
        · have hd2 : ¬alertKey m tag e ∈ dis ++ [k] := by
            simp [hd, hk]
          rw [if_pos ho, if_pos ho, if_neg hd2, if_neg hd, List.filter_cons,
            if_pos (by simp [mkAlert, hk])]
          rw [ih]
    · rw [if_neg ho, if_neg ho]
      exact ih

theorem filter_flatten_alert (p : Alert → Bool) (l : List (List Alert)) :
    l.flatten.filter p = (l.map (fun s => s.filter p)).flatten := by
  induction l with
  | nil => rfl
  | cons s ss ih => simp [List.filter_append, ih]

theorem monthAlerts_append_filter (cfg : FamilyConfig) (dis : List String)
    (k : String) (m : MonthData) :
    monthAlerts cfg (dis ++ [k]) m =
      (monthAlerts cfg dis m).filter (fun a => decide (¬a.alert_key = k)) := by
  rw [monthAlerts, monthAlerts, List.filter_append, List.filter_append,
    sourceAlerts_append_filter, sourceAlerts_append_filter,
    filter_flatten_alert, List.map_map]
  congr 2
  exact List.map_congr_left fun p _ => sourceAlerts_append_filter dis k m p.1
    (resolveCategoryName cfg p.1) p.2

theorem rawAlerts_append_filter (months : List MonthData)
    (cfg : FamilyConfig) (dis : List String) (k : String) :
    rawAlerts months cfg (dis ++ [k]) =
      (rawAlerts months cfg dis).filter (fun a => decide (¬a.alert_key = k)) := by
  rw [rawAlerts, rawAlerts, filter_flatten_alert, List.map_map]
  congr 1
  exact List.map_congr_left fun m _ => monthAlerts_append_filter cfg dis k m

/-- C5: appending a key `k` to the dismissal log (the dismissal operation)
makes the alert computation return exactly the previous alerts minus every
alert whose `alert_key` equals `k` — alerts with other keys are unaffected,
and all alerts colliding on `k` are suppressed together. -/
theorem dismiss_removes_exactly_key (months : List MonthData)
    (cfg : FamilyConfig) (log : List String) (k : String) :
    get_alerts months cfg (dismiss_alert log k) =
      (get_alerts months cfg log).filter (fun a => decide (¬a.alert_key = k)) := by
  rw [dismiss_alert, get_alerts, get_alerts, rawAlerts_append_filter,
    sortAlerts_filter]

theorem sourceAlerts_nil (m : MonthData) (tag cat : String)
    (items : List ExpenseItem) :
    sourceAlerts [] m tag cat items =
      items.filterMap (fun e =>
        if overBudget e then some (mkAlert m (alertKey m tag e) cat e)
        else none) := by
  rw [sourceAlerts]
  refine List.filterMap_congr fun e _ => ?_
  by_cases ho : overBudget e
  · rw [if_pos ho, if_pos ho, if_neg (List.not_mem_nil _)]
  · rw [if_neg ho, if_neg ho]

theorem sourceAlerts_keys (m : MonthData) (tag cat : String)
    (items : List ExpenseItem) :
    (sourceAlerts [] m tag cat items).map (fun a => a.alert_key) =
      items.filterMap
        (fun e => if overBudget e then some (alertKey m tag e) else none) := by
  rw [sourceAlerts_nil, List.map_filterMap]
  congr 1
  funext e
  by_cases ho : overBudget e
  · rw [if_pos ho, if_pos ho]
    rfl
  · rw [if_neg ho, if_neg ho]
    rfl

theorem map_flatten_alert (f : Alert → String) (l : List (List Alert)) :
    l.flatten.map f = (l.map (fun s => s.map f)).flatten := by
  induction l with
  | nil => rfl
  | cons s ss ih => simp [ih]

theorem monthOverKeys_eq (cfg : FamilyConfig) (m : MonthData) :
    monthOverKeys m = (monthAlerts cfg [] m).map (fun a => a.alert_key) := by
  rw [monthOverKeys, monthAlerts, List.map_append, List.map_append,
    sourceAlerts_keys, sourceAlerts_keys, map_flatten_alert, List.map_map]
  congr 2
  exact List.map_congr_left fun p _ =>
    (sourceAlerts_keys m p.1 (resolveCategoryName cfg p.1) p.2).symm

theorem overKeys_eq_rawAlert_keys (months : List MonthData)
    (cfg : FamilyConfig) :
    (months.map monthOverKeys).flatten =
      (rawAlerts months cfg []).map (fun a => a.alert_key) := by
  rw [rawAlerts, map_flatten_alert, List.map_map]
  congr 1
  exact List.map_congr_left fun m _ => monthOverKeys_eq cfg m

theorem clear_foldl_count (keys : List String) :
    ∀ (log : List String) (c : Nat),
      (keys.foldl clearStep (log, c)).2 =
        c + (keys.toFinset \ log.toFinset).card := by
  induction keys with
  | nil => intro log c; simp
  | cons k ks ih =>
    intro log c
    rw [List.foldl_cons]
    simp only [clearStep]
    by_cases hk : k ∈ log
    · rw [if_pos hk, ih, List.toFinset_cons,
        Finset.insert_sdiff_of_mem _ (List.mem_toFinset.mpr hk)]
    · rw [if_neg hk, ih]
      have h1 : ks.toFinset \ (log ++ [k]).toFinset =
          (ks.toFinset \ log.toFinset).erase k := by
        ext x
        simp only [List.toFinset_append, Finset.mem_sdiff, Finset.mem_union,
          List.toFinset_cons, List.toFinset_nil, Finset.mem_insert,
          Finset.not_mem_empty, Finset.mem_erase, List.mem_toFinset]
        tauto
      have h2 : (k :: ks).toFinset \ log.toFinset =
          insert k (ks.toFinset \ log.toFinset) := by
        rw [List.toFinset_cons]
        exact Finset.insert_sdiff_of_not_mem _
          (fun hc => hk (List.mem_toFinset.mp hc))
      rw [h1, h2]
      by_cases hkA : k ∈ ks.toFinset \ log.toFinset
      · rw [Finset.insert_eq_self.mpr hkA]
        have h3 := Finset.card_erase_add_one hkA
        omega
      · rw [Finset.erase_eq_of_not_mem hkA,
          Finset.card_insert_of_not_mem hkA]
        omega

theorem clear_foldl_mem (keys : List String) :
    ∀ (log : List String) (c : Nat) (x : String),
      x ∈ (keys.foldl clearStep (log, c)).1 ↔ x ∈ log ∨ x ∈ keys := by
  induction keys with
  | nil => intro log c x; simp
  | cons k ks ih =>
    intro log c x
    rw [List.foldl_cons]
    simp only [clearStep]
    by_cases hk : k ∈ log
    · rw [if_pos hk, ih, List.mem_cons]
      constructor
      · tauto
      · rintro (h | rfl | h)
        · exact Or.inl h
        · exact Or.inl hk
        · exact Or.inr h
    · rw [if_neg hk, ih, List.mem_cons]
      simp only [List.mem_append, List.mem_singleton]
      tauto

theorem clear_foldl_prefix (keys : List String) :
    ∀ (log : List String) (c : Nat),
      ∃ extra, (keys.foldl clearStep (log, c)).1 = log ++ extra := by
  induction keys with
  | nil => intro log c; exact ⟨[], by simp⟩
  | cons k ks ih =>
    intro log c
    rw [List.foldl_cons]
    simp only [clearStep]
    by_cases hk : k ∈ log
    · rw [if_pos hk]
      exact ih log c
    · rw [if_neg hk]
      obtain ⟨extra, he⟩ := ih (log ++ [k]) (c + 1)
      exact ⟨[k] ++ extra, by rw [he, List.append_assoc]⟩

/-- C6: the bulk-dismiss scan recomputes the full would-be alert key set
(ignoring existing dismissals — its key list equals the keys of the alerts
computed with an empty dismissal log), appends to the log exactly the keys
not already present, and reports the number of distinct new keys only:
already-dismissed keys are not recounted and a key occurring twice is counted
at most once. -/
theorem clear_all_alerts_count_and_log (months : List MonthData)
    (cfg : FamilyConfig) (log : List String) :
    ((months.map monthOverKeys).flatten =
      (rawAlerts months cfg []).map (fun a => a.alert_key)) ∧
    (clear_all_alerts months log).2 =
      (((months.map monthOverKeys).flatten).toFinset \ log.toFinset).card ∧
    (∀ x, x ∈ (clear_all_alerts months log).1 ↔
      x ∈ log ∨ x ∈ (months.map monthOverKeys).flatten) ∧
    ∃ extra, (clear_all_alerts months log).1 = log ++ extra := by
  refine ⟨overKeys_eq_rawAlert_keys months cfg, ?_, ?_, ?_⟩
  · have h := clear_foldl_count ((months.map monthOverKeys).flatten) log 0
    simpa [clear_all_alerts] using h
  · intro x
    exact clear_foldl_mem ((months.map monthOverKeys).flatten) log 0 x
  · exact clear_foldl_prefix ((months.map monthOverKeys).flatten) log 0

def mW6 : MonthData :=
  { year := 2024, month := 3, month_name := "Marzo",
    fixed_expenses := [{ name := "A", budget := 10, actual := 20 },
                       { name := "B", budget := 5, actual := 9 }],
    variable_expenses := [{ name := "C", budget := 1, actual := 2 }] }

/-- The spec's bulk-dismiss example, evaluated on the embedding: three
over-budget items with one key already dismissed report exactly 2 newly
dismissed. -/
theorem clear_all_alerts_example :
    (clear_all_alerts [mW6] ["2024-3-fixed-A"]).2 = 2 := by decide

end PresupuestoFamiliar
